import Mathlib

/-!
Verification of the Strava-Runbook data synchronization and derived-metrics
layer against its natural-language specification.

The definitions below are a shallow embedding of the TypeScript source:

* `src/shared/units.ts` — pace helpers (JavaScript number semantics are
  modelled by `JSNum`, an exact rational extended with the three non-finite
  IEEE values; arithmetic is exact rational arithmetic, which matches the
  double computations on all inputs used by the claims).
* `src/cli/strava.ts` — heart-rate zone normalization, trend-point
  construction and downsampling.
* `src/db/repository.ts` (PostgreSQL variant) — upsert, summary
  aggregation, date-range filters and the daily calendar summary.
  Database tables are lists of rows; SQL statements are translated into
  the corresponding list operations; timestamps are epoch seconds (`Int`).
* `src/server/app.ts` — the `/api/sync` handler, modelled as an
  interleaving of the atomic event-loop segments delimited by its `await`
  points, over the shared `syncInProgress` flag.
-/

/-! ## JavaScript number semantics (shared/units.ts) -/

/-- Model of a JavaScript `number`: an exact rational, or one of the three
non-finite IEEE double values. -/
inductive JSNum where
  | num (q : ℚ)
  | posInf
  | negInf
  | nan
  deriving DecidableEq

namespace JSNum

/-- Model of `Number.isFinite`. -/
def isFinite : JSNum → Bool
  | num _ => true
  | _ => false

/-- Model of the JavaScript `<=` comparison: any comparison involving `NaN`
is false; the infinities compare as expected. -/
def jsLe : JSNum → JSNum → Bool
  | num a, num b => a ≤ b
  | nan, _ => false
  | _, nan => false
  | negInf, _ => true
  | _, posInf => true
  | posInf, _ => false
  | _, negInf => false

/-- Model of JavaScript multiplication on doubles (exact on rationals;
IEEE rules for the non-finite values). -/
def jsMul : JSNum → JSNum → JSNum
  | num a, num b => num (a * b)
  | nan, _ => nan
  | _, nan => nan
  | posInf, posInf => posInf
  | posInf, negInf => negInf
  | negInf, posInf => negInf
  | negInf, negInf => posInf
  | posInf, num b => if b > 0 then posInf else if b < 0 then negInf else nan
  | num a, posInf => if a > 0 then posInf else if a < 0 then negInf else nan
  | negInf, num b => if b > 0 then negInf else if b < 0 then posInf else nan
  | num a, negInf => if a > 0 then negInf else if a < 0 then posInf else nan

/-- Model of JavaScript division on doubles (exact on rationals; IEEE rules
for zero denominators and the non-finite values, with the two signed zeros
collapsed to `0`). -/
def jsDiv : JSNum → JSNum → JSNum
  | num a, num b =>
      if b = 0 then (if a > 0 then posInf else if a < 0 then negInf else nan)
      else num (a / b)
  | nan, _ => nan
  | _, nan => nan
  | posInf, posInf => nan
  | posInf, negInf => nan
  | negInf, posInf => nan
  | negInf, negInf => nan
  | posInf, num b => if b < 0 then negInf else posInf
  | negInf, num b => if b < 0 then posInf else negInf
  | num _, posInf => num 0
  | num _, negInf => num 0

/-- Model of JavaScript truthiness on numbers: `0` and `NaN` are falsy. -/
def truthy : JSNum → Bool
  | num q => q ≠ 0
  | nan => false
  | _ => true

end JSNum

open JSNum in
/-- Embedding of `paceFromDistanceAndTime` (src/shared/units.ts): returns
`none` when `distanceM <= 0 || movingTimeS <= 0`, otherwise
`movingTimeS * 1000 / distanceM`. -/
def paceFromDistanceAndTime (distanceM movingTimeS : JSNum) : Option JSNum :=
  if jsLe distanceM (num 0) || jsLe movingTimeS (num 0) then none
  else some (jsDiv (jsMul movingTimeS (num 1000)) distanceM)

open JSNum in
/-- Embedding of `speedToPace` (src/shared/units.ts): returns `none` when
the speed is missing, falsy, or `<= 0`, otherwise `1000 / speedMps`. -/
def speedToPace (speedMps : Option JSNum) : Option JSNum :=
  match speedMps with
  | none => none
  | some v => if !v.truthy || jsLe v (num 0) then none else some (jsDiv (num 1000) v)

/-- Projection of a JavaScript number to its rational value, defined only on
finite values. -/
def jsToQ : JSNum → Option ℚ
  | JSNum.num q => some q
  | _ => none

/-- Rational restriction of `paceFromDistanceAndTime`, used by the
repository embedding where both totals are finite. -/
def paceQ (distanceM movingTimeS : ℚ) : Option ℚ :=
  if distanceM ≤ 0 ∨ movingTimeS ≤ 0 then none
  else some (movingTimeS * 1000 / distanceM)

/-- On finite inputs the JavaScript pace helper agrees with its rational
restriction. -/
theorem paceFromDistanceAndTime_num (d t : ℚ) :
    paceFromDistanceAndTime (JSNum.num d) (JSNum.num t) =
      (paceQ d t).map JSNum.num := by
  unfold paceFromDistanceAndTime paceQ
  by_cases hd : d ≤ 0
  · simp [JSNum.jsLe, hd]
  · by_cases ht : t ≤ 0
    · simp [JSNum.jsLe, hd, ht]
    · have hd0 : ¬ d = 0 := by intro h; exact hd (le_of_eq h)
      simp [JSNum.jsLe, hd, ht, JSNum.jsMul, JSNum.jsDiv, hd0]

/-! ## Heart-rate zone normalization (cli/strava.ts) -/

/-- Model of JavaScript `Math.round` on an exact rational: round half up. -/
def jsRound (q : ℚ) : ℤ := ⌊q + 1/2⌋

/-- Raw zone bucket as delivered by the external API
(`StravaZoneBucket` in cli/strava.ts): every field may be absent. -/
structure StravaZoneBucket where
  min : Option JSNum
  max : Option JSNum
  time : Option JSNum
  deriving DecidableEq

/-- Raw activity zone entry (`StravaActivityZone` in cli/strava.ts). -/
structure StravaActivityZone where
  type : Option String
  distribution_buckets : Option (List StravaZoneBucket)
  deriving DecidableEq

/-- Persisted heart-rate zone (`PersistedHeartRateZone` in db/repository.ts). -/
structure PersistedHeartRateZone where
  zone : String
  minBpm : ℤ
  maxBpm : Option ℤ
  timeS : ℤ
  percentage : Option ℚ
  deriving DecidableEq

/-- Embedding of `normalizeZoneMaxBpm` (cli/strava.ts): a bucket's max bpm is
discarded when non-finite, `<= 0`, or below the bucket's own min. The
argument is `Number(bucket.max)`, so the `max == null` guard of the source
is unreachable here (a missing field arrives as `NaN`). -/
def normalizeZoneMaxBpm (max : JSNum) (min : ℚ) : Option ℤ :=
  match max with
  | JSNum.num q => if q ≤ 0 then none else if q < min then none else some (jsRound q)
  | _ => none

/-- Clamped time of a bucket, as computed twice in
`toPersistedHeartRateZones`: `Number(bucket.time ?? 0)` kept only when
finite and positive, else `0`. -/
def clampTime (time : Option JSNum) : ℚ :=
  match time.getD (JSNum.num 0) with
  | JSNum.num q => if q > 0 then q else 0
  | _ => 0

/-- Total time over all buckets (the `reduce` in `toPersistedHeartRateZones`). -/
def totalTimeOf (buckets : List StravaZoneBucket) : ℚ :=
  buckets.foldl (fun sum b => sum + clampTime b.time) 0

/-- Clamped min bpm of a bucket:
`Number.isFinite(Number(bucket.min)) ? Math.max(0, Number(bucket.min)) : 0`. -/
def clampMin (min : Option JSNum) : ℚ :=
  match min.getD JSNum.nan with
  | JSNum.num q => Max.max 0 q
  | _ => 0

/-- Normalization of one bucket at position `index` (the `map` body of
`toPersistedHeartRateZones`). -/
def normalizeBucket (totalTimeS : ℚ) (index : ℕ) (b : StravaZoneBucket) :
    PersistedHeartRateZone :=
  let min := clampMin b.min
  let timeS : ℤ :=
    match b.time.getD (JSNum.num 0) with
    | JSNum.num q => if q > 0 then jsRound q else 0
    | _ => 0
  { zone := "Z" ++ toString (index + 1)
    minBpm := jsRound min
    maxBpm := normalizeZoneMaxBpm (b.max.getD JSNum.nan) min
    timeS := timeS
    percentage := if totalTimeS > 0 then some ((timeS : ℚ) / totalTimeS) else none }

/-- Normalization of a bucket list (the tail of `toPersistedHeartRateZones`
once the heart-rate bucket list has been selected). -/
def normalizeBuckets (buckets : List StravaZoneBucket) : List PersistedHeartRateZone :=
  let totalTimeS := totalTimeOf buckets
  buckets.mapIdx (fun index b => normalizeBucket totalTimeS index b)

/-- Embedding of `toPersistedHeartRateZones` (cli/strava.ts): select the
heart-rate zone entry (else the first entry carrying buckets), then
normalize its buckets. -/
def toPersistedHeartRateZones (activityZones : Option (List StravaActivityZone)) :
    List PersistedHeartRateZone :=
  match activityZones with
  | none => []
  | some zones =>
    if zones = [] then []
    else
      let heartRateZones :=
        (zones.find? (fun z => z.type = some "heartrate" && z.distribution_buckets.isSome)).orElse
          (fun _ => zones.find? (fun z => z.distribution_buckets.isSome))
      match heartRateZones with
      | none => []
      | some z =>
        match z.distribution_buckets with
        | none => []
        | some buckets => if buckets = [] then [] else normalizeBuckets buckets

/-- Sum of the reported percentages of a zone list, with `null` read as `0`
(as in the repository's own test suite). -/
def sumPercentages (zones : List PersistedHeartRateZone) : ℚ :=
  zones.foldl (fun sum z => sum + z.percentage.getD 0) 0

/-! ## Trend points (cli/strava.ts) -/

/-- Persisted trend point (`PersistedTrendPoint` in db/repository.ts). -/
structure PersistedTrendPoint where
  elapsedTimeS : ℤ
  distanceM : Option ℚ
  paceSecPerKm : Option ℚ
  heartrate : Option ℚ
  deriving DecidableEq

instance : Inhabited PersistedTrendPoint := ⟨⟨0, none, none, none⟩⟩

/-- Keyed stream payload (`StravaActivityStreams` in cli/strava.ts). -/
structure StravaActivityStreams where
  time : Option (List JSNum)
  distance : Option (List JSNum)
  heartrate : Option (List JSNum)
  velocity_smooth : Option (List JSNum)

/-- Typed stream entry of the array-shaped payload
(`StravaTypedStream` in cli/strava.ts). -/
structure StravaTypedStream where
  type : Option String
  data : Option (List JSNum)

/-- Stream payload in either accepted shape
(`StravaActivityStreamsPayload` in cli/strava.ts). -/
inductive StravaActivityStreamsPayload where
  | keyed (streams : StravaActivityStreams)
  | typed (entries : List StravaTypedStream)

/-- Embedding of `normalizeStreamPayload` (cli/strava.ts): the array shape is
folded into the keyed shape, later entries of a recognized type overwriting
earlier ones; the keyed shape passes through. -/
def normalizeStreamPayload : StravaActivityStreamsPayload → StravaActivityStreams
  | .keyed streams => streams
  | .typed entries =>
      entries.foldl
        (fun normalized stream =>
          match stream.type, stream.data with
          | some t, some d =>
              if t = "time" then { normalized with time := some d }
              else if t = "distance" then { normalized with distance := some d }
              else if t = "heartrate" then { normalized with heartrate := some d }
              else if t = "velocity_smooth" then { normalized with velocity_smooth := some d }
              else normalized
          | _, _ => normalized)
        ⟨none, none, none, none⟩

/-- Embedding of `toNumericSeries` (cli/strava.ts): a missing array becomes
`[]`; entries that are not finite numbers are dropped. -/
def toNumericSeries (input : Option (List JSNum)) : List ℚ :=
  (input.getD []).filterMap (fun item =>
    match item with
    | JSNum.num q => some q
    | _ => none)

/-- Loop body of `toPersistedTrendPoints` for one index of the zipped
series: `none` models `continue`. Out-of-range access models the JavaScript
`undefined`, which fails the `Number.isFinite` checks. -/
def mkTrendSample (time distance heartrate velocity : List ℚ) (index : ℕ) :
    Option PersistedTrendPoint :=
  match time.get? index with
  | none => none
  | some elapsedTimeS =>
    if elapsedTimeS < 0 then none
    else
      let distanceM := distance.get? index
      let heartrateValue := heartrate.get? index
      let paceSecPerKm : Option ℚ :=
        match velocity.get? index with
        | some rawVelocity =>
            if rawVelocity > 0 then (speedToPace (some (JSNum.num rawVelocity))).bind jsToQ
            else none
        | none => none
      if heartrateValue = none ∧ paceSecPerKm = none then none
      else some
        { elapsedTimeS := jsRound elapsedTimeS
          distanceM := distanceM
          paceSecPerKm := paceSecPerKm
          heartrate := heartrateValue }

/-- Comparison used by both sorts in cli/strava.ts:
`(a, b) => a.elapsedTimeS - b.elapsedTimeS` sorts ascending by elapsed time. -/
def trendPointLe (a b : PersistedTrendPoint) : Bool :=
  a.elapsedTimeS ≤ b.elapsedTimeS

/-- Clamped stride index used by `downsampleTrendPoints`:
`Math.min(points.length - 1, Math.max(0, Math.round(index * step)))` with
`step = (points.length - 1) / (maxPoints - 1)` (the division is exact
rational division; the function is only invoked with `maxPoints = 220`). -/
def strideIndex (length maxPoints index : ℕ) : ℕ :=
  let step : ℚ := ((length : ℚ) - 1) / ((maxPoints : ℚ) - 1)
  Min.min (length - 1) (Int.toNat (Max.max 0 (jsRound ((index : ℚ) * step))))

/-- The `used` set of `downsampleTrendPoints`: keep the first occurrence of
every index, in order. -/
def dedupAppend (idxs : List ℕ) : List ℕ :=
  idxs.foldl (fun used clamped => if clamped ∈ used then used else used ++ [clamped]) []

/-- Embedding of `downsampleTrendPoints` (cli/strava.ts): even index-stride
sampling with rounding, a used-index set, first/last re-insertion guards, and
a final sort by elapsed time. -/
def downsampleTrendPoints (points : List PersistedTrendPoint) (maxPoints : ℕ) :
    List PersistedTrendPoint :=
  if points.length ≤ maxPoints then points
  else
    let usedIdx := dedupAppend ((List.range maxPoints).map (strideIndex points.length maxPoints))
    let sampled := usedIdx.map (fun i => points.getD i default)
    let sampled := if sampled.head? ≠ points.head? then points.take 1 ++ sampled else sampled
    let sampled :=
      if sampled.getLast? ≠ points.getLast? then sampled ++ (points.getLast?.toList) else sampled
    sampled.mergeSort trendPointLe

/-- Filtered and sorted sample list built by `toPersistedTrendPoints` before
downsampling (the `points` array right after the `sort` call). -/
def survivingTrendPoints (streamsPayload : Option StravaActivityStreamsPayload) :
    List PersistedTrendPoint :=
  match streamsPayload with
  | none => []
  | some payload =>
    let streams := normalizeStreamPayload payload
    let time := toNumericSeries streams.time
    let distance := toNumericSeries streams.distance
    let heartrate := toNumericSeries streams.heartrate
    let velocity := toNumericSeries streams.velocity_smooth
    let length :=
      Max.max (Max.max time.length distance.length) (Max.max heartrate.length velocity.length)
    let points := (List.range length).filterMap (mkTrendSample time distance heartrate velocity)
    points.mergeSort trendPointLe

/-- Embedding of `toPersistedTrendPoints` (cli/strava.ts): build the
filtered sorted samples, then downsample to at most 220 points. The early
returns of the source (`!streamsPayload`, `length === 0`,
`points.length === 0`) all coincide with the empty-survivors case. -/
def toPersistedTrendPoints (streamsPayload : Option StravaActivityStreamsPayload) :
    List PersistedTrendPoint :=
  let points := survivingTrendPoints streamsPayload
  if points = [] then [] else downsampleTrendPoints points 220

/-! ## Calendar dates and timezone projections -/

/-- Calendar date, the meaning of a `YYYY-MM-DD` key string (the padded
string representation is injective on dates, so joining rows by string
equality is joining by this structure's equality). -/
structure CalDate where
  year : ℤ
  month : ℕ
  day : ℕ
  deriving DecidableEq

/-- Order on calendar dates: lexicographic, the order the `::date` SQL
comparisons and the `YYYY-MM-DD` string comparisons realize. -/
def dateLe (a b : CalDate) : Bool :=
  a.year < b.year ∨ (a.year = b.year ∧ (a.month < b.month ∨ (a.month = b.month ∧ a.day ≤ b.day)))

/-- Gregorian leap-year rule, as in the proleptic Gregorian calendar used by
both JavaScript dates and PostgreSQL. -/
def isLeapYear (y : ℤ) : Bool :=
  y % 4 = 0 ∧ (¬ y % 100 = 0 ∨ y % 400 = 0)

/-- Number of days in a month of the proleptic Gregorian calendar, for
`month` in `1..12` (the spec's "actual days-in-month"). -/
def gregorianDaysInMonth (year : ℤ) (month : ℤ) : ℕ :=
  if month = 2 then (if isLeapYear year then 29 else 28)
  else if month = 4 ∨ month = 6 ∨ month = 9 ∨ month = 11 then 30
  else 31

/-- Day number (days since 1970-01-01) of a proleptic Gregorian calendar
date, the inverse of `civilFromDays` below. This is the arithmetic content
of `Date.UTC`, whose result is this day number times 86,400,000 ms. -/
def daysFromCivil (y : ℤ) (m d : ℕ) : ℤ :=
  let yAdj : ℤ := if m ≤ 2 then y - 1 else y
  let era : ℤ := Int.fdiv yAdj 400
  let yoe : ℕ := (yAdj - era * 400).toNat
  let doy : ℕ := (153 * (if 2 < m then m - 3 else m + 9) + 2) / 5 + d - 1
  let doe : ℕ := yoe * 365 + yoe / 4 - yoe / 100 + doy
  era * 146097 + (doe : ℤ) - 719468

/-- Embedding of `new Date(Date.UTC(year, month, 0)).getUTCDate()` as used
by `buildMonthDateKeys` (db/repository.ts) for `month` in 1..12: `Date.UTC`
reinterprets a year between 0 and 99 as `1900 + year` (the JavaScript
two-digit-year rule) and, day 0 of the 0-based month `month` being the last
day of the 1-based month `month`, yields that month's day count — unless
the instant falls outside the JavaScript date range of ±8.64e15 ms
(±100,000,000 days) around the epoch, in which case `Date.UTC` returns
`NaN`, `getUTCDate()` is `NaN`, and `Array.from` builds zero keys: that
case is the day count 0. -/
def jsDaysInMonth (year : ℤ) (month : ℤ) : ℕ :=
  let y := if 0 ≤ year ∧ year ≤ 99 then year + 1900 else year
  let n := gregorianDaysInMonth y month
  if (daysFromCivil y month.toNat n).natAbs ≤ 100000000 then n else 0

/-- Embedding of `buildMonthDateKeys` (db/repository.ts): an empty list for
an out-of-range month or a month outside the JavaScript date range, else
one key per day of the month. The `Number.isInteger` guards of the source
hold for every `ℤ` input; the key text carries the raw (unpadded) year, so
a key's meaning is the `CalDate` with the input year. -/
def buildMonthDateKeys (year : ℤ) (month : ℤ) : List CalDate :=
  if month < 1 ∨ 12 < month then []
  else (List.range (jsDaysInMonth year month)).map (fun idx => ⟨year, month.toNat, idx + 1⟩)

/-- Conversion of an epoch day number to its calendar date in the proleptic
Gregorian calendar (day 0 is 1970-01-01). This is the arithmetic content of
`Intl.DateTimeFormat`/PostgreSQL `DATE(...)` once the instant has been
shifted into the target timezone. -/
def civilFromDays (z : ℤ) : CalDate :=
  let zs := z + 719468
  let era : ℤ := Int.fdiv zs 146097
  let doe : ℕ := (zs - era * 146097).toNat
  let yoe : ℕ := (doe - doe / 1460 + doe / 36524 - doe / 146096) / 365
  let y : ℤ := (yoe : ℤ) + era * 400
  let doy : ℕ := doe - (365 * yoe + yoe / 4 - yoe / 100)
  let mp : ℕ := (5 * doy + 2) / 153
  let d : ℕ := doy - (153 * mp + 2) / 5 + 1
  let m : ℕ := if mp < 10 then mp + 3 else mp - 9
  ⟨if m ≤ 2 then y + 1 else y, m, d⟩

/-- Calendar date of an instant (epoch seconds) in UTC. This is the
projection performed by `toCalendarDateKey` (db/repository.ts), whose
`Intl.DateTimeFormat` is constructed with `timeZone: 'UTC'`, and by the SQL
`DATE(start_date_local AT TIME ZONE 'UTC')` of `getDailySummary`. -/
def utcCalDate (instant : ℤ) : CalDate :=
  civilFromDays (Int.fdiv instant 86400)

/-- Calendar date of an instant (epoch seconds) in Asia/Shanghai, a fixed
UTC+8 zone. This is the projection performed by the SQL
`DATE(start_date_local AT TIME ZONE 'Asia/Shanghai')` of `buildDateWhere`
(db/repository.ts). -/
def shanghaiCalDate (instant : ℤ) : CalDate :=
  civilFromDays (Int.fdiv (instant + 8 * 3600) 86400)

example : utcCalDate 0 = ⟨1970, 1, 1⟩ := by decide
example : utcCalDate 1767225600 = ⟨2026, 1, 1⟩ := by decide
example : shanghaiCalDate 1767225600 = ⟨2026, 1, 1⟩ := by decide

/-! ## Repository state (db/repository.ts, PostgreSQL variant) -/

/-- Split of a persisted activity (`PersistedSplit` in db/repository.ts). -/
structure PersistedSplit where
  splitIndex : ℚ
  distanceM : ℚ
  elapsedTimeS : ℚ
  elevationDifferenceM : Option ℚ
  averageSpeedMps : Option ℚ
  paceSecPerKm : Option ℚ
  averageHeartrate : Option ℚ
  averageCadence : Option ℚ
  calories : Option ℚ
  deriving DecidableEq

/-- Normalized activity handed to the upsert
(`PersistedActivity` in db/repository.ts). `startDateLocal` is the instant
(epoch seconds) denoted by the ISO timestamp string of the source. -/
structure PersistedActivity where
  stravaId : ℤ
  name : String
  deviceName : Option String
  startDateLocal : ℤ
  distanceM : ℚ
  movingTimeS : ℚ
  elapsedTimeS : ℚ
  totalElevationGainM : ℚ
  averageSpeedMps : Option ℚ
  maxSpeedMps : Option ℚ
  averageHeartrate : Option ℚ
  maxHeartrate : Option ℚ
  averageCadence : Option ℚ
  calories : Option ℚ
  sufferScore : Option ℚ
  mapSummaryPolyline : Option String
  mapPolyline : Option String
  heartRateZones : Option (List PersistedHeartRateZone)
  trendPoints : Option (List PersistedTrendPoint)
  rawJson : String
  splits : List PersistedSplit
  deriving DecidableEq

/-- Row of the `activities` table. -/
structure ActivityRow where
  strava_id : ℤ
  name : String
  device_name : Option String
  start_date_local : ℤ
  distance_m : ℚ
  moving_time_s : ℚ
  elapsed_time_s : ℚ
  total_elevation_gain_m : ℚ
  average_speed_mps : Option ℚ
  max_speed_mps : Option ℚ
  average_heartrate : Option ℚ
  max_heartrate : Option ℚ
  average_cadence : Option ℚ
  calories : Option ℚ
  suffer_score : Option ℚ
  map_summary_polyline : Option String
  map_polyline : Option String
  heartrate_zones_json : Option (List PersistedHeartRateZone)
  trend_points_json : Option (List PersistedTrendPoint)
  raw_json : String
  updated_at : ℤ
  deriving DecidableEq

/-- Row of the `activity_splits` table. -/
structure SplitRow where
  activity_strava_id : ℤ
  split_index : ℚ
  distance_m : ℚ
  elapsed_time_s : ℚ
  elevation_difference_m : Option ℚ
  average_speed_mps : Option ℚ
  pace_sec_per_km : Option ℚ
  average_heartrate : Option ℚ
  average_cadence : Option ℚ
  calories : Option ℚ
  deriving DecidableEq

/-- Row of the `training_plans` table. -/
structure TrainingPlanRow where
  id : ℤ
  date : CalDate
  plan_text : String
  created_at : ℤ
  updated_at : ℤ
  deriving DecidableEq

/-- Row of the `activity_ai_analysis` table. -/
structure AnalysisRow where
  activity_strava_id : ℤ
  content : String
  generated_at : ℤ
  deriving DecidableEq

/-- Database state: the four tables owned by the repository. -/
structure Db where
  activities : List ActivityRow
  activitySplits : List SplitRow
  trainingPlans : List TrainingPlanRow
  activityAnalyses : List AnalysisRow
  deriving DecidableEq

/-- Values written into the `activities` row by the upsert INSERT
(the `VALUES` list of `upsertRunActivity`); the zone and trend JSON columns
are null unless the corresponding list is present and non-empty. -/
def rowOfPersisted (now : ℤ) (activity : PersistedActivity) : ActivityRow :=
  { strava_id := activity.stravaId
    name := activity.name
    device_name := activity.deviceName
    start_date_local := activity.startDateLocal
    distance_m := activity.distanceM
    moving_time_s := activity.movingTimeS
    elapsed_time_s := activity.elapsedTimeS
    total_elevation_gain_m := activity.totalElevationGainM
    average_speed_mps := activity.averageSpeedMps
    max_speed_mps := activity.maxSpeedMps
    average_heartrate := activity.averageHeartrate
    max_heartrate := activity.maxHeartrate
    average_cadence := activity.averageCadence
    calories := activity.calories
    suffer_score := activity.sufferScore
    map_summary_polyline := activity.mapSummaryPolyline
    map_polyline := activity.mapPolyline
    heartrate_zones_json :=
      match activity.heartRateZones with
      | some zones => if zones = [] then none else some zones
      | none => none
    trend_points_json :=
      match activity.trendPoints with
      | some points => if points = [] then none else some points
      | none => none
    raw_json := activity.rawJson
    updated_at := now }

/-- Values written into one `activity_splits` row by the upsert. -/
def splitRowOf (stravaId : ℤ) (split : PersistedSplit) : SplitRow :=
  { activity_strava_id := stravaId
    split_index := split.splitIndex
    distance_m := split.distanceM
    elapsed_time_s := split.elapsedTimeS
    elevation_difference_m := split.elevationDifferenceM
    average_speed_mps := split.averageSpeedMps
    pace_sec_per_km := split.paceSecPerKm
    average_heartrate := split.averageHeartrate
    average_cadence := split.averageCadence
    calories := split.calories }

/-- Result value of the upsert. -/
inductive UpsertResult where
  | created
  | updated
  deriving DecidableEq

/-- Embedding of `upsertRunActivity` (db/repository.ts): inside one
transaction, probe for an existing row with the same `strava_id` (to report
created vs updated), INSERT the activity row with ON CONFLICT(strava_id)
DO UPDATE (replace the matching row, or append a new one), DELETE all split
rows of that `strava_id`, and INSERT the input's splits. `now` stands for
the `NOW()` timestamp of the transaction. -/
def upsertRunActivity (now : ℤ) (activity : PersistedActivity) (db : Db) :
    UpsertResult × Db :=
  let existed := db.activities.any (fun r => r.strava_id = activity.stravaId)
  let row := rowOfPersisted now activity
  let activities :=
    if existed then
      db.activities.map (fun r => if r.strava_id = activity.stravaId then row else r)
    else db.activities ++ [row]
  let activitySplits :=
    db.activitySplits.filter (fun s => s.activity_strava_id ≠ activity.stravaId) ++
      activity.splits.map (splitRowOf activity.stravaId)
  (if existed then .updated else .created,
    { db with activities := activities, activitySplits := activitySplits })

/-! ## Read-side aggregation (db/repository.ts, PostgreSQL variant) -/

/-- Optional from/to calendar-date range (`DateRangeQuery` in
shared/types.ts); the `YYYY-MM-DD` strings are represented by their dates. -/
structure DateRangeQuery where
  fromDate : Option CalDate
  toDate : Option CalDate

/-- Embedding of the WHERE clause built by `buildDateWhere`
(db/repository.ts), the filter shared by `getSummary`, `getWeeklyTrends`
and `listActivities`:
`DATE(start_date_local AT TIME ZONE 'Asia/Shanghai') >= from` and
`... <= to`, each conjunct present only when the bound is supplied. -/
def matchesDateWhere (range : DateRangeQuery) (row : ActivityRow) : Bool :=
  (match range.fromDate with
   | some lower => dateLe lower (shanghaiCalDate row.start_date_local)
   | none => true) &&
  (match range.toDate with
   | some upper => dateLe (shanghaiCalDate row.start_date_local) upper
   | none => true)

/-- Summary aggregate returned by `getSummary`
(`SummaryMetrics` in shared/types.ts). -/
structure SummaryMetrics where
  totalRuns : ℕ
  totalDistanceM : ℚ
  totalMovingTimeS : ℚ
  totalElevationGainM : ℚ
  averagePaceSecPerKm : Option ℚ
  bestPaceSecPerKm : Option ℚ
  averageHeartrate : Option ℚ
  deriving DecidableEq

/-- Embedding of `getSummary` (db/repository.ts): one aggregate query over
the rows matched by `buildDateWhere`. COUNT/SUM/AVG/MIN become list
operations: AVG skips null heart rates, MIN skips the null paces produced
by `NULLIF(distance_m, 0)`, and the average pace is the units helper applied
to the summed distance and summed moving time (`paceQ` is
`paceFromDistanceAndTime` on finite values, see
`paceFromDistanceAndTime_num`). -/
def getSummary (db : Db) (range : DateRangeQuery) : SummaryMetrics :=
  let rows := db.activities.filter (matchesDateWhere range)
  let totalDistanceM := rows.foldl (fun sum r => sum + r.distance_m) 0
  let totalMovingTimeS := rows.foldl (fun sum r => sum + r.moving_time_s) 0
  let totalElevationGainM := rows.foldl (fun sum r => sum + r.total_elevation_gain_m) 0
  let heartRates := rows.filterMap (fun r => r.average_heartrate)
  let paces := rows.filterMap (fun r =>
    if r.distance_m = 0 then none else some (r.moving_time_s * 1000 / r.distance_m))
  { totalRuns := rows.length
    totalDistanceM := totalDistanceM
    totalMovingTimeS := totalMovingTimeS
    totalElevationGainM := totalElevationGainM
    averagePaceSecPerKm := paceQ totalDistanceM totalMovingTimeS
    bestPaceSecPerKm := paces.min?
    averageHeartrate :=
      if heartRates = [] then none
      else some (heartRates.foldl (· + ·) 0 / (heartRates.length : ℚ)) }

/-- Completion status of a calendar day (`CompletionStatus` in
shared/types.ts). -/
inductive CompletionStatus where
  | no_plan
  | missed
  | completed
  deriving DecidableEq

/-- One entry of the daily calendar view (`DailySummary` in
shared/types.ts), carrying table rows in place of their mapped DTOs. -/
structure DailySummary where
  date : CalDate
  plan : Option TrainingPlanRow
  activities : List ActivityRow
  completionStatus : CompletionStatus
  deriving DecidableEq

/-- Comparison used to model `ORDER BY start_date_local ASC`. -/
def activityStartLe (a b : ActivityRow) : Bool :=
  a.start_date_local ≤ b.start_date_local

/-- Embedding of `getDailySummary` (db/repository.ts): enumerate the month's
date keys — when there are none (out-of-range month, or a month beyond the
JavaScript date range) the source returns `[]` before touching SQL, as
here; otherwise batch-fetch the plans whose date lies in `[first, last]`
and the activities whose UTC calendar date lies in `[first, last]` (ordered
by start instant); then join in memory. The source keys both maps by
`YYYY-MM-DD` string; here the join key is the equivalent `CalDate`. The
plan map lookup is `find?`, which matches the source's date-keyed map under
the table's uniqueness constraint on plan dates; the per-day activity lists
of the source's insertion-ordered map equal a filter of the ordered
activity list. This embedding covers the executions in which PostgreSQL
accepts the generated key text as a date — every year the theorems below
quantify over; for a negative year the source instead throws when the key
text (such as `-5-02-01`) fails the `::date` cast, an error path with no
return value to model. -/
def getDailySummary (db : Db) (year : ℤ) (month : ℤ) : List DailySummary :=
  let days := buildMonthDateKeys year month
  match days with
  | [] => []
  | firstDay :: rest =>
    let lastDay := (firstDay :: rest).getLastD firstDay
    let plans := db.trainingPlans.filter (fun p =>
      dateLe firstDay p.date && dateLe p.date lastDay)
    let acts := (db.activities.filter (fun a =>
      dateLe firstDay (utcCalDate a.start_date_local) &&
        dateLe (utcCalDate a.start_date_local) lastDay)).mergeSort activityStartLe
    days.map (fun date =>
      let plan := plans.find? (fun p => p.date = date)
      let dayActivities := acts.filter (fun a => utcCalDate a.start_date_local = date)
      let completionStatus :=
        match plan with
        | none => CompletionStatus.no_plan
        | some _ =>
            if dayActivities = [] then CompletionStatus.missed else CompletionStatus.completed
      { date := date
        plan := plan
        activities := dayActivities
        completionStatus := completionStatus })

/-! ## Sync endpoint guard (server/app.ts) -/

/-- Batch result of a sync run (`SyncStats` in cli/sync.ts). -/
structure SyncStats where
  totalFetchedRuns : ℕ
  created : ℕ
  updated : ℕ
  skippedNonRun : ℕ
  failed : ℕ
  deriving DecidableEq

/-- Body of a POST `/api/sync` request: `Boolean(req.body?.full)` and the
optional `from` string. -/
structure SyncRequest where
  full : Bool
  reqFrom : Option String

/-- Model of JavaScript string truthiness: only the empty string is falsy. -/
def strTruthy (s : String) : Bool := s ≠ ""

/-- Embedding of `isValidDateInput` (server/app.ts): a missing or empty
value passes; otherwise the value must match `^\d{4}-\d{2}-\d{2}$`. -/
def isValidDateInput (value : Option String) : Bool :=
  match value with
  | none => true
  | some s =>
    if s = "" then true
    else
      match s.toList with
      | [a, b, c, d, e, f, g, h, i, j] =>
          a.isDigit && b.isDigit && c.isDigit && d.isDigit && e = '-' &&
            f.isDigit && g.isDigit && h = '-' && i.isDigit && j.isDigit
      | _ => false

/-- Response of the POST `/api/sync` handler. -/
inductive SyncResponse where
  | conflict
  | badRequest
  | okStats (stats : SyncStats) (mode : String) (resolvedFrom : Option String)
  | serverError (msg : String)
  deriving DecidableEq

/-- Phase of one in-flight POST `/api/sync` request. The handler's code
between two `await` expressions runs atomically on the Node.js event loop,
so these suspension points are the only places where another request can
interleave. -/
inductive SyncPhase where
  | start
  | awaitingLatest
  | awaitingSync
  | done (resp : SyncResponse)
  deriving DecidableEq

/-- One in-flight `/api/sync` request: its body, the result its
`syncActivities` call would produce (`Except.error` modelling a thrown
batch), its phase, the `from` value it has resolved, and whether it has
invoked `syncActivities`. -/
structure SyncTask where
  req : SyncRequest
  outcome : Except String SyncStats
  phase : SyncPhase
  resolvedFrom : Option String
  invokedSync : Bool

/-- State shared by all `/api/sync` requests: the module-level
`syncInProgress` flag and the `startDateLocal` of the most recent stored
activity (what the one-item `listActivities` lookup returns; `none` for an
empty store). -/
structure SyncServer where
  syncInProgress : Bool
  latestStart : Option String

/-- One atomic segment of the POST `/api/sync` handler (server/app.ts) for
one request, as delimited by its `await` points.

From `.start` the handler runs synchronously: with `syncInProgress` set it
answers 409 at once (before the `try`, flag untouched); a non-empty invalid
`from` answers 400 (the `finally` leaves the already-clear flag clear); a
full sync or an explicit `from` continues within the same segment through
`syncInProgress = true` into the awaited `syncActivities` call; the default
incremental request (no `full`, no `from`) instead suspends on
`await repository.listActivities(...)` before the flag is set. From
`.awaitingLatest` the resumed segment resolves `from` from the latest
activity (or `1970-01-01`), sets the flag, and suspends on the awaited
`syncActivities`. From `.awaitingSync` the resumed segment builds the 200
response — or the 500 response for a thrown batch — and its `finally`
clears the flag. -/
def syncStep (srv : SyncServer) (t : SyncTask) : SyncServer × SyncTask :=
  match t.phase with
  | .start =>
    if srv.syncInProgress then (srv, { t with phase := .done .conflict })
    else
      let badFrom :=
        match t.req.reqFrom with
        | some f => strTruthy f && !isValidDateInput (some f)
        | none => false
      if badFrom then
        ({ srv with syncInProgress := false }, { t with phase := .done .badRequest })
      else
        let hasFrom :=
          match t.req.reqFrom with
          | some f => strTruthy f
          | none => false
        if !t.req.full && !hasFrom then (srv, { t with phase := .awaitingLatest })
        else
          ({ srv with syncInProgress := true },
            { t with
                phase := .awaitingSync
                resolvedFrom := t.req.reqFrom
                invokedSync := true })
  | .awaitingLatest =>
      ({ srv with syncInProgress := true },
        { t with
            phase := .awaitingSync
            resolvedFrom := some ((srv.latestStart.map (fun s => s.take 10)).getD "1970-01-01")
            invokedSync := true })
  | .awaitingSync =>
      let resp :=
        match t.outcome with
        | .ok stats =>
            SyncResponse.okStats stats (if t.req.full then "full" else "incremental")
              t.resolvedFrom
        | .error msg => SyncResponse.serverError msg
      ({ srv with syncInProgress := false }, { t with phase := .done resp })
  | .done _ => (srv, t)

/-- Run two concurrent `/api/sync` requests under an explicit event-loop
schedule: `true` advances the first request by one atomic segment, `false`
the second. -/
def runTwoSync (srv : SyncServer) (t1 t2 : SyncTask) :
    List Bool → SyncServer × SyncTask × SyncTask
  | [] => (srv, t1, t2)
  | b :: rest =>
      if b then
        let s := syncStep srv t1
        runTwoSync s.1 s.2 t2 rest
      else
        let s := syncStep srv t2
        runTwoSync s.1 t1 s.2 rest

/-! ## Claim C9 — pace helper totality -/

/-- C9 counterexample: the claim states that `paceFromDistanceAndTime`
returns null when either input is non-finite, but the source only guards
`<= 0`; at the concrete non-finite input `distanceM = Infinity`,
`movingTimeS = 300` it returns `300 * 1000 / Infinity = 0`, not null. -/
theorem pace_nonfinite_counterexample :
    ¬ (∀ distanceM movingTimeS : JSNum,
        (distanceM.isFinite = false ∨ movingTimeS.isFinite = false) →
          paceFromDistanceAndTime distanceM movingTimeS = none) := by
  intro h
  have hx := h JSNum.posInf (JSNum.num 300) (Or.inl rfl)
  have hy : paceFromDistanceAndTime JSNum.posInf (JSNum.num 300) = some (JSNum.num 0) := by
    norm_num [paceFromDistanceAndTime, JSNum.jsLe, JSNum.jsMul, JSNum.jsDiv]
  rw [hx] at hy
  exact Option.noConfusion hy

/-- C9 amended: for every pair of finite numeric inputs,
`paceFromDistanceAndTime` returns null exactly when either input is `<= 0`,
and otherwise returns `movingTimeS * 1000 / distanceM`; in particular
`(0, 100) -> null`, `(1000, 0) -> null`, `(1000, 300) -> 300`. -/
theorem pace_totality_amended :
    (∀ distanceM movingTimeS : ℚ,
        paceFromDistanceAndTime (JSNum.num distanceM) (JSNum.num movingTimeS) =
          if distanceM ≤ 0 ∨ movingTimeS ≤ 0 then none
          else some (JSNum.num (movingTimeS * 1000 / distanceM))) ∧
      paceFromDistanceAndTime (JSNum.num 0) (JSNum.num 100) = none ∧
      paceFromDistanceAndTime (JSNum.num 1000) (JSNum.num 0) = none ∧
      paceFromDistanceAndTime (JSNum.num 1000) (JSNum.num 300) = some (JSNum.num 300) := by
  refine ⟨fun d t => ?_,
    by norm_num [paceFromDistanceAndTime, JSNum.jsLe],
    by norm_num [paceFromDistanceAndTime, JSNum.jsLe],
    by norm_num [paceFromDistanceAndTime, JSNum.jsLe, JSNum.jsMul, JSNum.jsDiv]⟩
  rw [paceFromDistanceAndTime_num d t]
  unfold paceQ
  by_cases h : d ≤ 0 ∨ t ≤ 0 <;> simp [h]

/-! ## Claim C4 — single-flight sync guard -/

/-- Batch result for the two-request race scenario. -/
def raceStats : SyncStats := ⟨5, 2, 3, 0, 0⟩

/-- A default incremental `/api/sync` request (no `full`, no `from`) whose
batch would succeed, not yet started. -/
def raceTask : SyncTask :=
  { req := { full := false, reqFrom := none }
    outcome := .ok raceStats
    phase := .start
    resolvedFrom := none
    invokedSync := false }

/-- The schedule exhibiting the guard's window: both requests run their
first segment (each suspending on the awaited `listActivities` before the
flag is set), then each resumes into `syncActivities`, then each
completes. -/
def raceSchedule : List Bool := [true, false, true, false, true, false]

/-- C4 (refuting the single-flight claim): on the default incremental path
the handler awaits `repository.listActivities(...)` between the
`syncInProgress` guard check and `syncInProgress = true`, so a second
request arriving during that await passes the guard: in this interleaving
of two default requests against an idle server, both requests invoke
`syncActivities` and both receive the 200 response — neither is rejected
with the conflict — contradicting the claim that a request arriving after
a previously accepted request has started and not yet completed is
rejected immediately and triggers no sync work. (The flag itself does end
up cleared, as each handler's `finally` runs.) -/
theorem sync_single_flight_race :
    (runTwoSync ⟨false, none⟩ raceTask raceTask raceSchedule).2.1.invokedSync = true ∧
    (runTwoSync ⟨false, none⟩ raceTask raceTask raceSchedule).2.2.invokedSync = true ∧
    (runTwoSync ⟨false, none⟩ raceTask raceTask raceSchedule).2.1.phase =
      SyncPhase.done (.okStats raceStats "incremental" (some "1970-01-01")) ∧
    (runTwoSync ⟨false, none⟩ raceTask raceTask raceSchedule).2.2.phase =
      SyncPhase.done (.okStats raceStats "incremental" (some "1970-01-01")) ∧
    (runTwoSync ⟨false, none⟩ raceTask raceTask raceSchedule).1.syncInProgress = false := by
  exact ⟨rfl, rfl, rfl, rfl, rfl⟩

/-! ## Claim C5 — summary average pace from summed totals -/

/-- Activity row for the end-to-end summary scenario: 10000 m in 3600 s,
starting 2026-01-01T08:00:00Z. -/
def summaryRowA : ActivityRow :=
  { strava_id := 101, name := "Morning Run", device_name := none
    start_date_local := 1767254400
    distance_m := 10000, moving_time_s := 3600, elapsed_time_s := 3700
    total_elevation_gain_m := 80
    average_speed_mps := none, max_speed_mps := none
    average_heartrate := some 150, max_heartrate := some 173
    average_cadence := none, calories := none, suffer_score := none
    map_summary_polyline := none, map_polyline := none
    heartrate_zones_json := none, trend_points_json := none
    raw_json := "", updated_at := 0 }

/-- Activity row for the end-to-end summary scenario: 5000 m in 1500 s,
starting 2026-01-08T08:00:00Z. -/
def summaryRowB : ActivityRow :=
  { strava_id := 102, name := "Tempo", device_name := none
    start_date_local := 1767859200
    distance_m := 5000, moving_time_s := 1500, elapsed_time_s := 1520
    total_elevation_gain_m := 35
    average_speed_mps := none, max_speed_mps := none
    average_heartrate := none, max_heartrate := none
    average_cadence := none, calories := none, suffer_score := none
    map_summary_polyline := none, map_polyline := none
    heartrate_zones_json := none, trend_points_json := none
    raw_json := "", updated_at := 0 }

/-- Database state holding exactly the two scenario activities. -/
def summaryExampleDb : Db :=
  { activities := [summaryRowA, summaryRowB], activitySplits := []
    trainingPlans := [], activityAnalyses := [] }

/-- C5: for every database state and query range, `getSummary` reports the
count and the summed distance and moving time of the matching rows, and its
average pace is the pace of those summed totals (`paceQ`, the units helper
on finite values) — in particular `movingTime * 1000 / distance` on the
sums, not a mean of per-activity paces; on the concrete two-activity
scenario with an unbounded range it reports `totalRuns = 2`,
`totalDistanceM = 15000` and `averagePaceSecPerKm = 340`. -/
theorem summary_average_pace_from_totals :
    (∀ (db : Db) (range : DateRangeQuery),
      (getSummary db range).totalRuns =
          (db.activities.filter (matchesDateWhere range)).length ∧
      (getSummary db range).totalDistanceM =
          ((db.activities.filter (matchesDateWhere range)).map (fun r => r.distance_m)).sum ∧
      (getSummary db range).totalMovingTimeS =
          ((db.activities.filter (matchesDateWhere range)).map (fun r => r.moving_time_s)).sum ∧
      (getSummary db range).averagePaceSecPerKm =
        paceQ (getSummary db range).totalDistanceM (getSummary db range).totalMovingTimeS) ∧
    (getSummary summaryExampleDb ⟨none, none⟩).totalRuns = 2 ∧
    (getSummary summaryExampleDb ⟨none, none⟩).totalDistanceM = 15000 ∧
    (getSummary summaryExampleDb ⟨none, none⟩).averagePaceSecPerKm = some 340 := by
  have hfold : ∀ (f : ActivityRow → ℚ) (l : List ActivityRow) (c : ℚ),
      l.foldl (fun sum r => sum + f r) c = c + (l.map f).sum := by
    intro f l
    induction l with
    | nil => simp
    | cons r rest ih => intro c; simp [ih, add_assoc]
  constructor
  · intro db range
    refine ⟨rfl, ?_, ?_, rfl⟩
    · show (db.activities.filter (matchesDateWhere range)).foldl
        (fun sum r => sum + r.distance_m) 0 = _
      rw [hfold]; ring
    · show (db.activities.filter (matchesDateWhere range)).foldl
        (fun sum r => sum + r.moving_time_s) 0 = _
      rw [hfold]; ring
  · refine ⟨?_, ?_, ?_⟩
    · rfl
    · show ([summaryRowA, summaryRowB].filter (matchesDateWhere ⟨none, none⟩)).foldl
        (fun sum r => sum + r.distance_m) 0 = 15000
      norm_num [matchesDateWhere, summaryRowA, summaryRowB]
    · show paceQ
        (([summaryRowA, summaryRowB].filter (matchesDateWhere ⟨none, none⟩)).foldl
          (fun sum r => sum + r.distance_m) 0)
        (([summaryRowA, summaryRowB].filter (matchesDateWhere ⟨none, none⟩)).foldl
          (fun sum r => sum + r.moving_time_s) 0) = some 340
      norm_num [matchesDateWhere, summaryRowA, summaryRowB, paceQ]

/-! ## Claims C1 and C10 — upsert idempotency and frame -/

/-- Replacing the rows matching `id` leaves the non-matching rows of the
table unchanged (the ON CONFLICT update path). -/
theorem filter_ne_map_replace (l : List ActivityRow) (row : ActivityRow) (id : ℤ)
    (hrow : row.strava_id = id) :
    (l.map (fun r => if r.strava_id = id then row else r)).filter
        (fun r => r.strava_id ≠ id) =
      l.filter (fun r => r.strava_id ≠ id) := by
  induction l with
  | nil => rfl
  | cons r rest ih =>
    by_cases h : r.strava_id = id
    · simpa [h, hrow] using ih
    · simpa [h] using ih

/-- Replacing the rows matching `id` rewrites each matching row to `row`. -/
theorem filter_eq_map_replace (l : List ActivityRow) (row : ActivityRow) (id : ℤ)
    (hrow : row.strava_id = id) :
    (l.map (fun r => if r.strava_id = id then row else r)).filter
        (fun r => r.strava_id = id) =
      (l.filter (fun r => r.strava_id = id)).map (fun _ => row) := by
  induction l with
  | nil => rfl
  | cons r rest ih =>
    by_cases h : r.strava_id = id
    · simpa [h, hrow] using ih
    · simpa [h] using ih

/-- The split rows inserted for `id` all carry `id` as their activity key. -/
theorem filter_splitRowOf_ne (id : ℤ) (splits : List PersistedSplit) :
    (splits.map (splitRowOf id)).filter (fun s => s.activity_strava_id ≠ id) = [] := by
  induction splits with
  | nil => rfl
  | cons s rest ih => simp [splitRowOf, ih]

/-- The split rows inserted for `id` survive the filter keeping `id`. -/
theorem filter_splitRowOf_eq (id : ℤ) (splits : List PersistedSplit) :
    (splits.map (splitRowOf id)).filter (fun s => s.activity_strava_id = id) =
      splits.map (splitRowOf id) := by
  induction splits with
  | nil => rfl
  | cons s rest ih => simp [splitRowOf, ih]

/-- C10: an upsert touches only the activity row keyed by the input's
`stravaId` and the split rows attached to that key: the training-plan and
analysis tables are returned unchanged, and the activity and split rows
belonging to every other `stravaId` are unchanged, on both the create and
the update path. -/
theorem upsert_frame_property (db : Db) (a : PersistedActivity) (now : ℤ) :
    ((upsertRunActivity now a db).2.trainingPlans = db.trainingPlans) ∧
    ((upsertRunActivity now a db).2.activityAnalyses = db.activityAnalyses) ∧
    ((upsertRunActivity now a db).2.activities.filter (fun r => r.strava_id ≠ a.stravaId) =
      db.activities.filter (fun r => r.strava_id ≠ a.stravaId)) ∧
    ((upsertRunActivity now a db).2.activitySplits.filter
        (fun s => s.activity_strava_id ≠ a.stravaId) =
      db.activitySplits.filter (fun s => s.activity_strava_id ≠ a.stravaId)) := by
  unfold upsertRunActivity
  refine ⟨by cases hex : db.activities.any (fun r => r.strava_id = a.stravaId) <;> simp [hex],
    by cases hex : db.activities.any (fun r => r.strava_id = a.stravaId) <;> simp [hex],
    ?_, ?_⟩
  · cases hex : db.activities.any (fun r => r.strava_id = a.stravaId) <;> simp [hex]
    · exact rfl
    · simpa using filter_ne_map_replace db.activities (rowOfPersisted now a) a.stravaId rfl
  · cases hex : db.activities.any (fun r => r.strava_id = a.stravaId) <;> simp [hex]
    · exact fun a_1 a_2 => rfl
    · exact fun a_1 a_2 => rfl

/-- C1: starting from a state with no activity row for the input's
`stravaId`, upserting the same persisted activity twice stores exactly one
activity row for that `stravaId`, reports `created` then `updated`, and
leaves the split rows attached to that `stravaId` equal to the input's
split list — no duplicates, and no leftovers from any prior split set of
that `stravaId` (the delete-then-insert runs on every upsert). -/
theorem upsert_idempotent_replaces_splits (db : Db) (a : PersistedActivity) (now1 now2 : ℤ)
    (hfresh : db.activities.any (fun r => r.strava_id = a.stravaId) = false) :
    (upsertRunActivity now1 a db).1 = UpsertResult.created ∧
    (upsertRunActivity now2 a (upsertRunActivity now1 a db).2).1 = UpsertResult.updated ∧
    ((upsertRunActivity now2 a (upsertRunActivity now1 a db).2).2.activities.filter
        (fun r => r.strava_id = a.stravaId)).length = 1 ∧
    (upsertRunActivity now2 a (upsertRunActivity now1 a db).2).2.activitySplits.filter
        (fun s => s.activity_strava_id = a.stravaId) =
      a.splits.map (splitRowOf a.stravaId) := by
  have hfilter_nil : db.activities.filter (fun r => r.strava_id = a.stravaId) = [] := by
    rw [List.filter_eq_nil_iff]
    intro r hr
    have := (List.any_eq_false).mp hfresh r hr
    simpa using this
  have hexists2 :
      ((upsertRunActivity now1 a db).2.activities.any
        (fun r => r.strava_id = a.stravaId)) = true := by
    unfold upsertRunActivity
    simp [hfresh, rowOfPersisted]
  refine ⟨?_, ?_, ?_, ?_⟩
  · unfold upsertRunActivity
    simp [hfresh]
  · unfold upsertRunActivity
    unfold upsertRunActivity at hexists2
    simp only [hfresh] at hexists2 ⊢
    simp only [Bool.false_eq_true, if_false] at hexists2 ⊢
    simp [hexists2]
  · unfold upsertRunActivity
    simp only [hfresh, Bool.false_eq_true, if_false]
    simp only [List.any_append, hfresh, Bool.false_or]
    have hany1 : ([rowOfPersisted now1 a].any (fun r => r.strava_id = a.stravaId)) = true := by
      simp [rowOfPersisted]
    simp only [hany1, if_true]
    rw [List.map_append,
      (by simp [rowOfPersisted] : (List.map (fun r =>
          if r.strava_id = a.stravaId then rowOfPersisted now2 a else r)
          [rowOfPersisted now1 a]) = [rowOfPersisted now2 a]),
      List.filter_append]
    rw [show (List.filter (fun r => decide (r.strava_id = a.stravaId))
        (List.map (fun r => if r.strava_id = a.stravaId then rowOfPersisted now2 a else r)
          db.activities)) = _ from
      filter_eq_map_replace db.activities (rowOfPersisted now2 a) a.stravaId rfl]
    simp [hfilter_nil, rowOfPersisted]
  · unfold upsertRunActivity
    simp only [hfresh, Bool.false_eq_true, if_false]
    simp only [List.filter_append, List.filter_filter]
    have h1 : List.filter (fun s : SplitRow =>
        decide (s.activity_strava_id = a.stravaId) &&
          (decide (s.activity_strava_id ≠ a.stravaId) &&
            decide (s.activity_strava_id ≠ a.stravaId))) db.activitySplits = [] := by
      rw [List.filter_eq_nil_iff]
      intro x hx
      simp
    have h2 : List.filter (fun s : SplitRow =>
        decide (s.activity_strava_id = a.stravaId) &&
          decide (s.activity_strava_id ≠ a.stravaId))
        (List.map (splitRowOf a.stravaId) a.splits) = [] := by
      rw [List.filter_eq_nil_iff]
      intro x hx
      simp
    rw [h1, h2, filter_splitRowOf_eq]
    simp

/-- Empty database state. -/
def emptyDb : Db :=
  { activities := [], activitySplits := [], trainingPlans := [], activityAnalyses := [] }

/-- Concrete persisted activity with two splits, for the upsert witness. -/
def upsertExampleActivity : PersistedActivity :=
  { stravaId := 17300000001, name := "Interval Run", deviceName := some "Watch"
    startDateLocal := 1767254400
    distanceM := 2000, movingTimeS := 600, elapsedTimeS := 640
    totalElevationGainM := 12
    averageSpeedMps := some (10/3), maxSpeedMps := some 4
    averageHeartrate := some 152, maxHeartrate := some 171
    averageCadence := some 84, calories := some 120, sufferScore := some 31
    mapSummaryPolyline := none, mapPolyline := none
    heartRateZones := none, trendPoints := none
    rawJson := "{}"
    splits := [
      { splitIndex := 1, distanceM := 1000, elapsedTimeS := 290
        elevationDifferenceM := some 2, averageSpeedMps := some (10/3)
        paceSecPerKm := some 300, averageHeartrate := some 149
        averageCadence := some 84, calories := some 58 },
      { splitIndex := 2, distanceM := 1000, elapsedTimeS := 310
        elevationDifferenceM := some (-2), averageSpeedMps := some 3
        paceSecPerKm := some 310, averageHeartrate := some 156
        averageCadence := some 85, calories := some 62 }] }

/-- Witness for C1 at a concrete input: the empty store is fresh for the
example activity, and the double upsert behaves as the theorem states. -/
theorem upsert_idempotent_replaces_splits_witness :
    (emptyDb.activities.any
        (fun r => r.strava_id = upsertExampleActivity.stravaId) = false) ∧
    ((upsertRunActivity 1 upsertExampleActivity emptyDb).1 = UpsertResult.created ∧
      (upsertRunActivity 2 upsertExampleActivity
          (upsertRunActivity 1 upsertExampleActivity emptyDb).2).1 = UpsertResult.updated ∧
      ((upsertRunActivity 2 upsertExampleActivity
          (upsertRunActivity 1 upsertExampleActivity emptyDb).2).2.activities.filter
            (fun r => r.strava_id = upsertExampleActivity.stravaId)).length = 1 ∧
      (upsertRunActivity 2 upsertExampleActivity
          (upsertRunActivity 1 upsertExampleActivity emptyDb).2).2.activitySplits.filter
            (fun s => s.activity_strava_id = upsertExampleActivity.stravaId) =
        upsertExampleActivity.splits.map (splitRowOf upsertExampleActivity.stravaId)) :=
  ⟨rfl, upsert_idempotent_replaces_splits emptyDb upsertExampleActivity 1 2 rfl⟩

/-! ## Claim C6 — heart-rate zone percentages -/

/-- Rounding fixes integers. -/
theorem jsRound_intCast (z : ℤ) : jsRound (z : ℚ) = z := by
  unfold jsRound
  rw [add_comm, Int.floor_add_int]
  norm_num

/-- The stored time of a normalized bucket is the rounded clamped time. -/
theorem normalizeBucket_timeS (totalTimeS : ℚ) (index : ℕ) (b : StravaZoneBucket) :
    (normalizeBucket totalTimeS index b).timeS = jsRound (clampTime b.time) := by
  unfold normalizeBucket clampTime
  cases h : b.time.getD (JSNum.num 0) with
  | num q =>
    by_cases hq : q > 0
    · simp [h, hq]
    · simp only [h, hq, if_false]
      norm_num [jsRound]
  | posInf => simp only [h]; norm_num [jsRound]
  | negInf => simp only [h]; norm_num [jsRound]
  | nan => simp only [h]; norm_num [jsRound]

/-- Folding an addition is summing the mapped list. -/
theorem foldl_add_map {α : Type} (f : α → ℚ) (l : List α) (c : ℚ) :
    l.foldl (fun sum x => sum + f x) c = c + (l.map f).sum := by
  induction l generalizing c with
  | nil => simp
  | cons x rest ih => simp [ih, add_assoc]

/-- Sum over an index-aware map whose values do not depend on the index. -/
theorem sum_map_mapIdx {α β : Type} :
    ∀ (l : List α) (g : ℕ → α → β) (f : β → ℚ) (h : α → ℚ),
      (∀ i b, b ∈ l → f (g i b) = h b) →
      ((l.mapIdx g).map f).sum = (l.map h).sum := by
  intro l
  induction l with
  | nil => intro g f h _; simp
  | cons x rest ih =>
    intro g f h H
    rw [List.mapIdx_cons]
    simp only [List.map_cons, List.sum_cons]
    rw [H 0 x (List.mem_cons_self x rest),
      ih (fun i a => g (i + 1) a) f h (fun i b hb => H (i + 1) b (List.mem_cons_of_mem x hb))]

/-- With a positive total, a normalized bucket's percentage is its stored
time over the total. -/
theorem normalizeBucket_percentage (totalTimeS : ℚ) (hpos : 0 < totalTimeS)
    (index : ℕ) (b : StravaZoneBucket) :
    (normalizeBucket totalTimeS index b).percentage =
      some (((normalizeBucket totalTimeS index b).timeS : ℚ) / totalTimeS) := by
  unfold normalizeBucket
  simp [hpos]

/-- Bucket list with two fractional 1.4-second times, refuting the claimed
percentage identities. -/
def cxZoneBuckets : List StravaZoneBucket :=
  [⟨some (JSNum.num 0), some (JSNum.num 100), some (JSNum.num (7/5))⟩,
    ⟨some (JSNum.num 100), some (JSNum.num 150), some (JSNum.num (7/5))⟩]

/-- C6 counterexample: with two buckets of 1.4 seconds each, each stored
zone time is rounded to 1 while the total stays 2.8, so each percentage is
1/2.8 (not 1.4/2.8) and the percentages sum to 5/7, far outside the claimed
1e-5 tolerance around 1. -/
theorem zone_percentage_sum_counterexample :
    cxZoneBuckets ≠ [] ∧ 0 < totalTimeOf cxZoneBuckets ∧
    sumPercentages (toPersistedHeartRateZones
      (some [⟨some "heartrate", some cxZoneBuckets⟩])) = 5/7 ∧
    ¬ |(5 : ℚ)/7 - 1| ≤ 1/100000 := by
  refine ⟨by simp [cxZoneBuckets], ?_, ?_, ?_⟩
  · norm_num [cxZoneBuckets, totalTimeOf, clampTime]
  · have h19 : ⌊(19 : ℚ)/10⌋ = 1 := by
      rw [Int.floor_eq_iff] 
      all_goals norm_num
    have hzones : toPersistedHeartRateZones (some [⟨some "heartrate", some cxZoneBuckets⟩]) =
        normalizeBuckets cxZoneBuckets := by
      rw [toPersistedHeartRateZones]
      simp [List.find?, cxZoneBuckets]
    rw [hzones]
    norm_num [cxZoneBuckets, normalizeBuckets, totalTimeOf, clampTime, sumPercentages,
      List.mapIdx_cons, normalizeBucket, jsRound,
      show (7:ℚ)/5 + 1/2 = 19/10 by norm_num, h19]
  · rw [show (5:ℚ)/7 - 1 = -(2/7) by norm_num, abs_neg,
      abs_of_pos (by norm_num : (0:ℚ) < 2/7)]
    norm_num

/-- With a non-positive total, a normalized bucket's percentage is null. -/
theorem normalizeBucket_percentage_zero (totalTimeS : ℚ) (hnpos : ¬ 0 < totalTimeS)
    (index : ℕ) (b : StravaZoneBucket) :
    (normalizeBucket totalTimeS index b).percentage = none := by
  unfold normalizeBucket
  simp [hnpos]

/-- C6 amended: for every bucket list, the zone normalized from the bucket
at any position carries as percentage the bucket's rounded clamped time
divided by the unrounded sum of all clamped times — null when that sum is
zero; a non-empty list is the one the heart-rate entry hands to the
normalizer; for every bucket list whose clamped times are whole numbers
and whose total is positive, the percentages sum to exactly 1 (hence
within any tolerance); and normalizing is deterministic, so re-normalizing
the same input yields the same percentages. -/
theorem zone_percentages_amended (buckets : List StravaZoneBucket) :
    (∀ (i : ℕ) (b : StravaZoneBucket), buckets[i]? = some b →
      Option.map (fun z => z.percentage) (normalizeBuckets buckets)[i]? =
        some (if 0 < totalTimeOf buckets
          then some ((jsRound (clampTime b.time) : ℚ) / totalTimeOf buckets)
          else none)) ∧
    (buckets ≠ [] →
      toPersistedHeartRateZones (some [⟨some "heartrate", some buckets⟩]) =
        normalizeBuckets buckets) ∧
    ((∀ b ∈ buckets, ((jsRound (clampTime b.time) : ℚ)) = clampTime b.time) →
      0 < totalTimeOf buckets →
      sumPercentages (normalizeBuckets buckets) = 1) ∧
    normalizeBuckets buckets = normalizeBuckets buckets := by
  refine ⟨?_, ?_, ?_, rfl⟩
  · intro i b hib
    unfold normalizeBuckets
    dsimp only []
    rw [List.getElem?_mapIdx, hib, Option.map_some', Option.map_some']
    show some ((normalizeBucket (totalTimeOf buckets) i b).percentage) =
      some (if 0 < totalTimeOf buckets
        then some ((jsRound (clampTime b.time) : ℚ) / totalTimeOf buckets)
        else none)
    by_cases hpos : 0 < totalTimeOf buckets
    · rw [if_pos hpos, normalizeBucket_percentage (totalTimeOf buckets) hpos i b,
        normalizeBucket_timeS]
    · rw [if_neg hpos, normalizeBucket_percentage_zero (totalTimeOf buckets) hpos i b]
  · intro hne
    rw [toPersistedHeartRateZones]
    simp [List.find?, hne]
  · intro hwhole hpos
    have htotal : totalTimeOf buckets = (buckets.map (fun b => clampTime b.time)).sum := by
      unfold totalTimeOf
      rw [foldl_add_map]
      ring
    unfold sumPercentages normalizeBuckets
    rw [foldl_add_map, zero_add]
    rw [sum_map_mapIdx buckets (fun index b => normalizeBucket (totalTimeOf buckets) index b)
      (fun z => z.percentage.getD 0) (fun b => clampTime b.time / totalTimeOf buckets) ?heq]
    case heq =>
      intro i b hb
      show (normalizeBucket (totalTimeOf buckets) i b).percentage.getD 0 =
        clampTime b.time / totalTimeOf buckets
      rw [normalizeBucket_percentage (totalTimeOf buckets) hpos i b, Option.getD_some,
        normalizeBucket_timeS, hwhole b hb]
    rw [show (fun b : StravaZoneBucket => clampTime b.time / totalTimeOf buckets) =
        (fun b : StravaZoneBucket => clampTime b.time * (totalTimeOf buckets)⁻¹) from
      funext (fun b => div_eq_mul_inv _ _)]
    rw [List.sum_map_mul_right, ← htotal, mul_inv_cancel₀ hpos.ne']

/-- Bucket list with whole-second times, as in the repository's own zone
test. -/
def zoneWitnessBuckets : List StravaZoneBucket :=
  [⟨some (JSNum.num 0), some (JSNum.num 121), some (JSNum.num 60)⟩,
    ⟨some (JSNum.num 122), some (JSNum.num 151), some (JSNum.num 120)⟩]

/-- Witness for the amended C6 at a concrete input with whole-second times:
the hypotheses of each conditional clause hold, the percentage formula
holds at index 0, the percentages sum to exactly 1, and the heart-rate
entry's buckets are the ones normalized. -/
theorem zone_percentages_amended_witness :
    ((∀ b ∈ zoneWitnessBuckets,
        ((jsRound (clampTime b.time) : ℚ)) = clampTime b.time) ∧
      0 < totalTimeOf zoneWitnessBuckets ∧ zoneWitnessBuckets ≠ [] ∧
      zoneWitnessBuckets[0]? =
        some ⟨some (JSNum.num 0), some (JSNum.num 121), some (JSNum.num 60)⟩) ∧
    Option.map (fun z => z.percentage) (normalizeBuckets zoneWitnessBuckets)[0]? =
      some (if 0 < totalTimeOf zoneWitnessBuckets
        then some ((jsRound (clampTime (some (JSNum.num 60))) : ℚ) /
          totalTimeOf zoneWitnessBuckets)
        else none) ∧
    sumPercentages (normalizeBuckets zoneWitnessBuckets) = 1 ∧
    toPersistedHeartRateZones (some [⟨some "heartrate", some zoneWitnessBuckets⟩]) =
      normalizeBuckets zoneWitnessBuckets := by
  have h60 : jsRound ((60 : ℚ)) = 60 := by
    show ⌊(60 : ℚ) + 1/2⌋ = 60
    rw [Int.floor_eq_iff]
    all_goals norm_num
  have h120 : jsRound ((120 : ℚ)) = 120 := by
    show ⌊(120 : ℚ) + 1/2⌋ = 120
    rw [Int.floor_eq_iff]
    all_goals norm_num
  have hne : zoneWitnessBuckets ≠ [] := by simp [zoneWitnessBuckets]
  have hwhole : ∀ b ∈ zoneWitnessBuckets,
      ((jsRound (clampTime b.time) : ℚ)) = clampTime b.time := by
    intro b hb
    fin_cases hb
    · norm_num [clampTime, h60]
    · norm_num [clampTime, h120]
  have hpos : 0 < totalTimeOf zoneWitnessBuckets := by
    norm_num [zoneWitnessBuckets, totalTimeOf, clampTime]
  obtain ⟨hformula, hbridge, hsum, -⟩ := zone_percentages_amended zoneWitnessBuckets
  exact ⟨⟨hwhole, hpos, hne, rfl⟩,
    hformula 0 ⟨some (JSNum.num 0), some (JSNum.num 121), some (JSNum.num 60)⟩ rfl,
    hsum hwhole hpos, hbridge hne⟩

/-! ## Claim C8 — trend sample filtering -/

/-- Pace computed for one zipped index: null exactly when the velocity
sample is missing or non-positive. -/
theorem trend_pace_none_iff (velocity : List ℚ) (index : ℕ) :
    (match velocity.get? index with
      | some rawVelocity =>
          if rawVelocity > 0 then (speedToPace (some (JSNum.num rawVelocity))).bind jsToQ
          else none
      | none => none) = none ↔
      ¬ ∃ v, velocity.get? index = some v ∧ 0 < v := by
  cases hv : velocity.get? index with
  | none => simp
  | some v =>
    by_cases hpos : v > 0
    · have hv0 : ¬ v = 0 := ne_of_gt hpos
      have hvle : ¬ v ≤ 0 := not_le.mpr hpos
      simp [hpos, speedToPace, JSNum.truthy, JSNum.jsLe, JSNum.jsDiv, jsToQ, hv0, hvle]
    · simp only [hpos, if_false, true_iff, eq_self_iff_true]
      rintro ⟨v', hv', hv'pos⟩
      have hvv : v = v' := by injection hv'
      exact hpos (hvv ▸ hv'pos)

/-- C8: a zipped sample at index `i` of the four numeric series survives
exactly when its elapsed-time value is present and non-negative and at
least one of heart rate or derived pace is available at that index; and a
surviving sample whose velocity is missing or non-positive carries a null
pace (no division artifact). A sample carrying only a heart rate is kept
(the backward direction of the characterization with a missing pace). -/
theorem trend_sample_filtering (time distance heartrate velocity : List ℚ) (index : ℕ) :
    ((mkTrendSample time distance heartrate velocity index).isSome = true ↔
      ∃ t, time.get? index = some t ∧ 0 ≤ t ∧
        (heartrate.get? index ≠ none ∨ ∃ v, velocity.get? index = some v ∧ 0 < v)) ∧
    (∀ p, mkTrendSample time distance heartrate velocity index = some p →
      (∀ v, velocity.get? index = some v → v ≤ 0) → p.paceSecPerKm = none) := by
  constructor
  · unfold mkTrendSample
    cases htime : time.get? index with
    | none => simp
    | some t =>
      by_cases ht : t < 0
      · simp only [ht, if_true, Option.isSome_none, Bool.false_eq_true, false_iff]
        rintro ⟨t', ht', h0, _⟩
        have htt : t = t' := by injection ht'
        exact absurd (htt ▸ h0) (not_le.mpr ht)
      · simp only [ht, if_false]
        by_cases hdrop : heartrate.get? index = none ∧
            (match velocity.get? index with
              | some rawVelocity =>
                  if rawVelocity > 0 then
                    (speedToPace (some (JSNum.num rawVelocity))).bind jsToQ
                  else none
              | none => none) = none
        · rw [if_pos hdrop]
          simp only [Option.isSome_none, Bool.false_eq_true, false_iff]
          rintro ⟨t', ht', _, hsig⟩
          rcases hsig with hhr | hvel
          · exact hhr hdrop.1
          · exact (trend_pace_none_iff velocity index).mp hdrop.2 hvel
        · rw [if_neg hdrop]
          simp only [Option.isSome_some, true_iff]
          refine ⟨t, rfl, not_lt.mp ht, ?_⟩
          rcases not_and_or.mp hdrop with hhr | hpace
          · exact Or.inl hhr
          · exact Or.inr (not_not.mp
              (fun hc => hpace ((trend_pace_none_iff velocity index).mpr hc)))
  · intro p hp hvle
    have hpace : (match velocity.get? index with
        | some rawVelocity =>
            if rawVelocity > 0 then
              (speedToPace (some (JSNum.num rawVelocity))).bind jsToQ
            else none
        | none => none) = none := by
      rw [trend_pace_none_iff]
      rintro ⟨v, hv, hvpos⟩
      exact absurd (hvle v hv) (not_le.mpr hvpos)
    unfold mkTrendSample at hp
    split at hp
    · exact Option.noConfusion hp
    · split at hp
      · exact Option.noConfusion hp
      · dsimp only [] at hp
        by_cases hdrop : heartrate.get? index = none ∧
            (match velocity.get? index with
              | some rawVelocity =>
                  if rawVelocity > 0 then
                    (speedToPace (some (JSNum.num rawVelocity))).bind jsToQ
                  else none
              | none => none) = none
        · rw [if_pos hdrop] at hp
          exact Option.noConfusion hp
        · rw [if_neg hdrop] at hp
          rw [← Option.some.inj hp]
          exact hpace

/-- Witness for C8 at a concrete index: a sample carrying only a heart rate
(velocity present but non-positive) is kept, and its pace is null. -/
theorem trend_sample_filtering_witness :
    ((mkTrendSample [(5 : ℚ)] [] [(120 : ℚ)] [(-1 : ℚ)] 0).isSome = true) ∧
    (∀ p, mkTrendSample [(5 : ℚ)] [] [(120 : ℚ)] [(-1 : ℚ)] 0 = some p →
      p.paceSecPerKm = none) :=
  ⟨(trend_sample_filtering [(5 : ℚ)] [] [(120 : ℚ)] [(-1 : ℚ)] 0).1.mpr
      ⟨5, rfl, by norm_num, Or.inl (by simp)⟩,
    fun p hp =>
      (trend_sample_filtering [(5 : ℚ)] [] [(120 : ℚ)] [(-1 : ℚ)] 0).2 p hp
        (fun v hv => by
          have hv1 : (-1 : ℚ) = v := by injection hv
          rw [← hv1]
          norm_num)⟩

/-! ## Claim C2 — daily summary completeness and status rule -/

/-- Unfolding of `getDailySummary` once the month's key list is known to be
non-empty. -/
theorem getDailySummary_eq (db : Db) (year month : ℤ) (firstDay : CalDate)
    (rest : List CalDate)
    (hdays : buildMonthDateKeys year month = firstDay :: rest) :
    getDailySummary db year month =
      (firstDay :: rest).map (fun date =>
        let plan := (db.trainingPlans.filter (fun p =>
          dateLe firstDay p.date &&
            dateLe p.date ((firstDay :: rest).getLastD firstDay))).find?
          (fun p => p.date = date)
        let dayActivities := ((db.activities.filter (fun a =>
          dateLe firstDay (utcCalDate a.start_date_local) &&
            dateLe (utcCalDate a.start_date_local)
              ((firstDay :: rest).getLastD firstDay))).mergeSort
            activityStartLe).filter (fun a => utcCalDate a.start_date_local = date)
        { date := date
          plan := plan
          activities := dayActivities
          completionStatus :=
            match plan with
            | none => CompletionStatus.no_plan
            | some _ =>
                if dayActivities = [] then CompletionStatus.missed
                else CompletionStatus.completed }) := by
  unfold getDailySummary
  rw [hdays]

/-- Sorting a list of at most one element returns it unchanged. -/
theorem mergeSort_of_length_le_one {α : Type} (le : α → α → Bool) (l : List α)
    (h : l.length ≤ 1) : l.mergeSort le = l := by
  match l with
  | [] => exact List.mergeSort_nil
  | [a] => exact List.mergeSort_singleton a
  | a :: b :: rest => simp at h

/-! ## Claim C3 — timezone of range filters vs calendar bucketing -/

/-- Single stored activity at the instant 2026-01-01T20:00:00Z, which is
2026-01-02 04:00 in Asia/Shanghai. -/
def c3Db : Db :=
  { activities := [{ summaryRowA with start_date_local := 1767297600 }]
    activitySplits := [], trainingPlans := [], activityAnalyses := [] }

/-- C3 divergence: the instant 2026-01-01T20:00:00Z falls on calendar day
2026-01-02 under the Asia/Shanghai projection used by `buildDateWhere`
(the range filter of `getSummary`, `getWeeklyTrends` and `listActivities`),
but on 2026-01-01 under the UTC projection used by `toCalendarDateKey` and
the `getDailySummary` SQL filter. Concretely, the summary range covering
exactly 2026-01-02 counts the activity, while the daily calendar view
buckets it under 2026-01-01 and shows the 2026-01-02 entry empty — the
instant-to-day projection is not a single fixed timezone offset across
those queries. -/
theorem timezone_mixed_projection_divergence :
    shanghaiCalDate 1767297600 = ⟨2026, 1, 2⟩ ∧
    utcCalDate 1767297600 = ⟨2026, 1, 1⟩ ∧
    matchesDateWhere ⟨some ⟨2026, 1, 2⟩, some ⟨2026, 1, 2⟩⟩
      { summaryRowA with start_date_local := 1767297600 } = true ∧
    (getSummary c3Db ⟨some ⟨2026, 1, 2⟩, some ⟨2026, 1, 2⟩⟩).totalRuns = 1 ∧
    ((getDailySummary c3Db 2026 1).find? (fun e => e.date = ⟨2026, 1, 2⟩)).map
      (fun e => e.activities.length) = some 0 ∧
    ((getDailySummary c3Db 2026 1).find? (fun e => e.date = ⟨2026, 1, 1⟩)).map
      (fun e => e.activities.length) = some 1 := by
  have hjan : buildMonthDateKeys 2026 1 = (⟨2026, 1, 1⟩ : CalDate) ::
      ((List.range 30).map Nat.succ).map
        (fun idx => (⟨2026, 1, idx + 1⟩ : CalDate)) := by
    decide
  have hms : ∀ (q : ActivityRow → Bool),
      (c3Db.activities.filter q).mergeSort activityStartLe =
        c3Db.activities.filter q := by
    intro q
    exact mergeSort_of_length_le_one activityStartLe _
      (le_trans (List.length_filter_le _ _) (by rfl))
  refine ⟨by decide, by decide, rfl, rfl, ?_, ?_⟩
  · rw [getDailySummary_eq c3Db 2026 1 _ _ hjan, hms]
    rfl
  · rw [getDailySummary_eq c3Db 2026 1 _ _ hjan, hms]
    rfl

/-! ## Claim C7 — trend downsampling bounds, endpoints, determinism -/

/-- The dedup fold grows by at most one element per input. -/
theorem dedup_foldl_length : ∀ (l acc : List ℕ),
    (l.foldl (fun used c => if c ∈ used then used else used ++ [c]) acc).length ≤
      acc.length + l.length := by
  intro l
  induction l with
  | nil => intro acc; simp
  | cons c rest ih =>
    intro acc
    rw [List.foldl_cons]
    by_cases hc : c ∈ acc
    · rw [if_pos hc]
      refine le_trans (ih acc) ?_
      simp only [List.length_cons]
      omega
    · rw [if_neg hc]
      refine le_trans (ih (acc ++ [c])) ?_
      simp only [List.length_append, List.length_cons, List.length_nil]
      omega

/-- The dedup fold's elements are those of the accumulator and the input. -/
theorem dedup_foldl_mem : ∀ (l acc : List ℕ) (x : ℕ),
    (x ∈ l.foldl (fun used c => if c ∈ used then used else used ++ [c]) acc ↔
      x ∈ acc ∨ x ∈ l) := by
  intro l
  induction l with
  | nil => intro acc x; simp
  | cons c rest ih =>
    intro acc x
    rw [List.foldl_cons]
    by_cases hc : c ∈ acc
    · rw [if_pos hc, ih]
      constructor
      · rintro (h | h)
        · exact Or.inl h
        · exact Or.inr (List.mem_cons_of_mem c h)
      · rintro (h | h)
        · exact Or.inl h
        · rcases List.mem_cons.mp h with rfl | h
          · exact Or.inl hc
          · exact Or.inr h
    · rw [if_neg hc, ih]
      simp [List.mem_cons, List.mem_append]
      tauto

/-- The dedup fold keeps the head of a non-empty accumulator. -/
theorem dedup_foldl_head : ∀ (l acc : List ℕ), acc ≠ [] →
    (l.foldl (fun used c => if c ∈ used then used else used ++ [c]) acc).head? =
      acc.head? := by
  intro l
  induction l with
  | nil => intro acc _; rfl
  | cons c rest ih =>
    intro acc hacc
    rw [List.foldl_cons]
    by_cases hc : c ∈ acc
    · rw [if_pos hc]
      exact ih acc hacc
    · rw [if_neg hc, ih (acc ++ [c]) (by simp), List.head?_append_of_ne_nil _ hacc]

/-- Deduplicating a non-decreasing index list yields a strictly increasing
list (the fold appends an index only when it exceeds everything kept so
far). -/
theorem dedup_foldl_pairwise : ∀ (l acc : List ℕ), acc.Pairwise (· < ·) →
    (∀ a ∈ acc, ∀ x ∈ l, a ≤ x) → l.Pairwise (· ≤ ·) →
    (l.foldl (fun used c => if c ∈ used then used else used ++ [c]) acc).Pairwise
      (· < ·) := by
  intro l
  induction l with
  | nil => intro acc hacc _ _; exact hacc
  | cons c rest ih =>
    intro acc hacc hle hl
    rw [List.foldl_cons]
    rcases List.pairwise_cons.mp hl with ⟨hcrest, hrest⟩
    by_cases hc : c ∈ acc
    · rw [if_pos hc]
      exact ih acc hacc (fun a ha x hx => hle a ha x (List.mem_cons_of_mem c hx)) hrest
    · rw [if_neg hc]
      refine ih (acc ++ [c]) ?_ ?_ hrest
      · rw [List.pairwise_append]
        refine ⟨hacc, List.pairwise_singleton _ _, ?_⟩
        intro a ha b hb
        rcases List.mem_singleton.mp hb with rfl
        have hac : a ≤ b := hle a ha b (List.mem_cons_self b rest)
        rcases lt_or_eq_of_le hac with h | h
        · exact h
        · exact absurd (h ▸ ha) hc
      · intro a ha x hx
        rcases List.mem_append.mp ha with ha | ha
        · exact hle a ha x (List.mem_cons_of_mem c hx)
        · rcases List.mem_singleton.mp ha with rfl
          exact hcrest x hx

/-- When every index seen so far is below `mx`, folding the final `mx`
appends it, so the fold's last element is `mx`. -/
theorem dedup_foldl_getLast : ∀ (l acc : List ℕ) (mx : ℕ),
    (∀ x ∈ acc, x < mx) → (∀ x ∈ l, x < mx) →
    ((l ++ [mx]).foldl (fun used c => if c ∈ used then used else used ++ [c])
      acc).getLast? = some mx := by
  intro l acc mx hacc hl
  rw [List.foldl_append, List.foldl_cons, List.foldl_nil]
  have hnotmem : mx ∉ l.foldl (fun used c => if c ∈ used then used else used ++ [c]) acc := by
    intro hmem
    rcases (dedup_foldl_mem l acc mx).mp hmem with h | h
    · exact absurd (hacc mx h) (lt_irrefl mx)
    · exact absurd (hl mx h) (lt_irrefl mx)
  rw [if_neg hnotmem, List.getLast?_concat]

/-- Rounding is monotone. -/
theorem jsRound_mono {q r : ℚ} (h : q ≤ r) : jsRound q ≤ jsRound r :=
  Int.floor_le_floor (add_le_add_right h _)

/-- The first stride index is 0. -/
theorem strideIndex_zero (n mp : ℕ) : strideIndex n mp 0 = 0 := by
  unfold strideIndex jsRound
  norm_num

/-- Stride indices never exceed the last position. -/
theorem strideIndex_le (n mp i : ℕ) : strideIndex n mp i ≤ n - 1 :=
  min_le_left _ _

/-- Stride indices are monotone in the loop index. -/
theorem strideIndex_mono (n mp : ℕ) (hn : 1 ≤ n) (hmp : 1 ≤ mp) {i j : ℕ}
    (hij : i ≤ j) : strideIndex n mp i ≤ strideIndex n mp j := by
  unfold strideIndex
  have hstep : (0 : ℚ) ≤ ((n : ℚ) - 1) / ((mp : ℚ) - 1) := by
    apply div_nonneg
    · have : (1 : ℚ) ≤ (n : ℚ) := by exact_mod_cast hn
      linarith
    · have : (1 : ℚ) ≤ (mp : ℚ) := by exact_mod_cast hmp
      linarith
  have hmul : (i : ℚ) * (((n : ℚ) - 1) / ((mp : ℚ) - 1)) ≤
      (j : ℚ) * (((n : ℚ) - 1) / ((mp : ℚ) - 1)) := by
    apply mul_le_mul_of_nonneg_right _ hstep
    exact_mod_cast hij
  exact min_le_min (le_refl (n - 1))
    (Int.toNat_le_toNat (max_le_max (le_refl 0) (jsRound_mono hmul)))

/-- The final stride index hits the last position exactly. -/
theorem strideIndex_last (n mp : ℕ) (h2 : 2 ≤ mp) (hlt : mp < n) :
    strideIndex n mp (mp - 1) = n - 1 := by
  unfold strideIndex
  have hmp1 : ((mp : ℚ) - 1) ≠ 0 := by
    have : (2 : ℚ) ≤ (mp : ℚ) := by exact_mod_cast h2
    linarith
  have hcast : ((mp - 1 : ℕ) : ℚ) = (mp : ℚ) - 1 := by
    have : (1 : ℕ) ≤ mp := by omega
    push_cast [this]
    ring
  have hmul : ((mp - 1 : ℕ) : ℚ) * (((n : ℚ) - 1) / ((mp : ℚ) - 1)) = (n : ℚ) - 1 := by
    rw [hcast]
    field_simp
  dsimp only []
  rw [hmul]
  have hn1 : (1 : ℕ) ≤ n := by omega
  have hcastn : ((n : ℚ) - 1) = (((n - 1 : ℕ) : ℤ) : ℚ) := by
    push_cast [hn1]
    ring
  rw [hcastn, jsRound_intCast]
  have hge : (0 : ℤ) ≤ ((n - 1 : ℕ) : ℤ) := Int.ofNat_nonneg _
  rw [max_eq_right hge, Int.toNat_natCast, min_self]

/-- Stride indices before the final loop index stay strictly below the last
position whenever the input is longer than the target. -/
theorem strideIndex_lt_last (n mp i : ℕ) (h2 : 2 ≤ mp) (hlt : mp < n)
    (hi : i + 2 ≤ mp) : strideIndex n mp i < n - 1 := by
  unfold strideIndex
  dsimp only []
  have hn2 : (2 : ℕ) ≤ n := by omega
  have hmpq : (2 : ℚ) ≤ (mp : ℚ) := by exact_mod_cast h2
  have hmp0 : (0 : ℚ) < (mp : ℚ) - 1 := by linarith
  have hnq : ((mp : ℚ)) < (n : ℚ) := by exact_mod_cast hlt
  have hstep_nonneg : (0 : ℚ) ≤ ((n : ℚ) - 1) / ((mp : ℚ) - 1) := by
    apply div_nonneg _ (le_of_lt hmp0)
    linarith
  have hiq : (i : ℚ) ≤ (mp : ℚ) - 2 := by
    have : ((i : ℚ)) + 2 ≤ (mp : ℚ) := by exact_mod_cast hi
    linarith
  have hmul : (i : ℚ) * (((n : ℚ) - 1) / ((mp : ℚ) - 1)) ≤
      ((mp : ℚ) - 2) * (((n : ℚ) - 1) / ((mp : ℚ) - 1)) :=
    mul_le_mul_of_nonneg_right hiq hstep_nonneg
  have hub : ((mp : ℚ) - 2) * (((n : ℚ) - 1) / ((mp : ℚ) - 1)) ≤ (n : ℚ) - 2 := by
    rw [mul_comm, div_mul_eq_mul_div, div_le_iff₀ hmp0]
    nlinarith
  have hround : jsRound ((i : ℚ) * (((n : ℚ) - 1) / ((mp : ℚ) - 1))) < (n : ℤ) - 1 := by
    unfold jsRound
    rw [Int.floor_lt]
    push_cast
    linarith
  have hmax : Max.max 0 (jsRound ((i : ℚ) * (((n : ℚ) - 1) / ((mp : ℚ) - 1)))) < (n : ℤ) - 1 := by
    rw [max_lt_iff]
    exact ⟨by omega, hround⟩
  have h0le : (0 : ℤ) ≤ Max.max 0 (jsRound ((i : ℚ) * (((n : ℚ) - 1) / ((mp : ℚ) - 1)))) :=
    le_max_left _ _
  have htn : (Max.max 0 (jsRound ((i : ℚ) * (((n : ℚ) - 1) / ((mp : ℚ) - 1))))).toNat < n - 1 := by
    omega
  exact lt_of_le_of_lt (min_le_right _ _) htn

/-- Deduplicating a list with head `a` keeps `a` as the head. -/
theorem dedupAppend_cons_head (a : ℕ) (rest : List ℕ) :
    (dedupAppend (a :: rest)).head? = some a := by
  unfold dedupAppend
  rw [List.foldl_cons, if_neg (List.not_mem_nil a),
    dedup_foldl_head rest ([] ++ [a]) (by simp)]
  simp

/-- The deduplicated stride-index list starts at 0, ends at the last input
position, is strictly increasing, stays in range, and has at most `mp`
entries. -/
theorem dedupStride_props (n mp : ℕ) (h2 : 2 ≤ mp) (hlt : mp < n) :
    (dedupAppend ((List.range mp).map (strideIndex n mp))).head? = some 0 ∧
    (dedupAppend ((List.range mp).map (strideIndex n mp))).getLast? = some (n - 1) ∧
    (dedupAppend ((List.range mp).map (strideIndex n mp))).Pairwise (· < ·) ∧
    (∀ x ∈ dedupAppend ((List.range mp).map (strideIndex n mp)), x < n) ∧
    (dedupAppend ((List.range mp).map (strideIndex n mp))).length ≤ mp := by
  have hmp1 : mp - 1 + 1 = mp := by omega
  have hmp2 : Nat.succ (mp - 1) = mp := hmp1
  have hrange0 : List.range mp = 0 :: (List.range (mp - 1)).map Nat.succ := by
    conv_lhs => rw [← hmp1]
    rw [List.range_succ_eq_map]
  have hrange1 : List.range mp = List.range (mp - 1) ++ [mp - 1] := by
    conv_lhs => rw [← hmp2]
    rw [List.range_succ]
  refine ⟨?_, ?_, ?_, ?_, ?_⟩
  · rw [hrange0, List.map_cons, strideIndex_zero]
    exact dedupAppend_cons_head 0 _
  · rw [hrange1, List.map_append, List.map_singleton, strideIndex_last n mp h2 hlt]
    unfold dedupAppend
    refine dedup_foldl_getLast _ [] (n - 1) (by simp) ?_
    intro x hx
    obtain ⟨i, hi, rfl⟩ := List.mem_map.mp hx
    have hi' : i < mp - 1 := List.mem_range.mp hi
    exact strideIndex_lt_last n mp i h2 hlt (by omega)
  · unfold dedupAppend
    refine dedup_foldl_pairwise _ [] List.Pairwise.nil (by simp) ?_
    rw [List.pairwise_map]
    refine (List.pairwise_lt_range mp).imp ?_
    intro a b hab
    exact strideIndex_mono n mp (by omega) (by omega) (le_of_lt hab)
  · intro x hx
    unfold dedupAppend at hx
    rcases (dedup_foldl_mem _ [] x).mp hx with h | h
    · simp at h
    · obtain ⟨i, _, rfl⟩ := List.mem_map.mp h
      have := strideIndex_le n mp i
      omega
  · unfold dedupAppend
    have := dedup_foldl_length ((List.range mp).map (strideIndex n mp)) []
    simpa using this

/-- Mapping an index list with head 0 over a non-empty point list keeps the
first point. -/
theorem sampled_head (points : List PersistedTrendPoint) (u : List ℕ)
    (h0 : 0 < points.length) (hh : u.head? = some 0) :
    (u.map (fun i => points.getD i default)).head? = points.head? := by
  rw [List.head?_map, hh, Option.map_some', List.getD_eq_getElem _ _ h0,
    List.head?_eq_getElem?, List.getElem?_eq_getElem h0]

/-- Mapping an index list ending at the last position over a non-empty point
list keeps the last point. -/
theorem sampled_last (points : List PersistedTrendPoint) (u : List ℕ)
    (h0 : 0 < points.length) (hl : u.getLast? = some (points.length - 1)) :
    (u.map (fun i => points.getD i default)).getLast? = points.getLast? := by
  have hn1 : points.length - 1 < points.length := by omega
  rw [List.getLast?_map, hl, Option.map_some', List.getD_eq_getElem _ _ hn1,
    List.getLast?_eq_getElem?, List.getElem?_eq_getElem hn1]

/-- Mapping a strictly increasing in-range index list over a sorted point
list yields a sorted sample list. -/
theorem sampled_sorted (points : List PersistedTrendPoint) (u : List ℕ)
    (hsorted : points.Pairwise (fun a b => trendPointLe a b = true))
    (hmem : ∀ x ∈ u, x < points.length) (hpair : u.Pairwise (· < ·)) :
    (u.map (fun i => points.getD i default)).Pairwise
      (fun a b => trendPointLe a b = true) := by
  rw [List.pairwise_map, List.pairwise_iff_getElem]
  intro i j hi hj hij
  have h1 : u[i] < u[j] := List.pairwise_iff_getElem.mp hpair i j hi hj hij
  have h2 : u[j] < points.length := hmem _ (List.getElem_mem hj)
  have h1n : u[i] < points.length := lt_trans h1 h2
  show trendPointLe (points.getD u[i] default) (points.getD u[j] default) = true
  rw [List.getD_eq_getElem _ _ h1n, List.getD_eq_getElem _ _ h2]
  exact List.pairwise_iff_getElem.mp hsorted _ _ h1n h2 h1

/-- The comparator of both sorts in cli/strava.ts is transitive. -/
theorem trendPointLe_trans : ∀ a b c : PersistedTrendPoint,
    trendPointLe a b = true → trendPointLe b c = true → trendPointLe a c = true := by
  intro a b c hab hbc
  simp only [trendPointLe, decide_eq_true_eq] at hab hbc ⊢
  exact le_trans hab hbc

/-- The comparator of both sorts in cli/strava.ts is total. -/
theorem trendPointLe_total : ∀ a b : PersistedTrendPoint,
    (trendPointLe a b || trendPointLe b a) = true := by
  intro a b
  simp only [trendPointLe, Bool.or_eq_true, decide_eq_true_eq]
  exact le_total _ _

/-- The surviving filtered samples come out of a merge sort, so they are
sorted by elapsed time. -/
theorem survivingTrendPoints_sorted (p : Option StravaActivityStreamsPayload) :
    (survivingTrendPoints p).Pairwise (fun a b => trendPointLe a b = true) := by
  cases p with
  | none => exact List.Pairwise.nil
  | some payload =>
    unfold survivingTrendPoints
    dsimp only []
    exact List.sorted_mergeSort trendPointLe_trans trendPointLe_total _

/-- On a sorted input longer than the 220-point target, downsampling keeps
at most 220 points, stays sorted, and preserves the exact first and last
points: both re-insertion guards are provably dead and the final sort is
the identity. -/
theorem downsample_props (points : List PersistedTrendPoint)
    (hsorted : points.Pairwise (fun a b => trendPointLe a b = true))
    (hlen : 220 < points.length) :
    (downsampleTrendPoints points 220).length ≤ 220 ∧
    (downsampleTrendPoints points 220).Pairwise (fun a b => trendPointLe a b = true) ∧
    (downsampleTrendPoints points 220).head? = points.head? ∧
    (downsampleTrendPoints points 220).getLast? = points.getLast? := by
  have hnot : ¬ points.length ≤ 220 := by omega
  obtain ⟨hhead, hlast, hpair, hmem, hulen⟩ :=
    dedupStride_props points.length 220 (by norm_num) hlen
  have hshead := sampled_head points _ (by omega) hhead
  have hslast := sampled_last points _ (by omega) hlast
  have hssort := sampled_sorted points _ hsorted hmem hpair
  have heq : downsampleTrendPoints points 220 =
      (dedupAppend ((List.range 220).map (strideIndex points.length 220))).map
        (fun i => points.getD i default) := by
    unfold downsampleTrendPoints
    rw [if_neg hnot]
    dsimp only []
    rw [if_neg (not_ne_iff.mpr hshead), if_neg (not_ne_iff.mpr hslast)]
    exact List.mergeSort_of_sorted hssort
  rw [heq]
  refine ⟨?_, hssort, hshead, hslast⟩
  rw [List.length_map]
  exact hulen

/-- C7: for every input stream payload, `toPersistedTrendPoints` returns at
most 220 points, sorted ascending by elapsed time; its first point equals
the first surviving filtered sample exactly and its last point equals the
last surviving filtered sample exactly (in particular whenever more than
220 samples survive filtering); and, being a function of the payload alone,
it is deterministic: the same input always yields the same output. -/
theorem trend_downsampling_bounds_endpoints
    (streamsPayload : Option StravaActivityStreamsPayload) :
    (toPersistedTrendPoints streamsPayload).length ≤ 220 ∧
    (toPersistedTrendPoints streamsPayload).Pairwise
      (fun a b => a.elapsedTimeS ≤ b.elapsedTimeS) ∧
    (toPersistedTrendPoints streamsPayload).head? =
      (survivingTrendPoints streamsPayload).head? ∧
    (toPersistedTrendPoints streamsPayload).getLast? =
      (survivingTrendPoints streamsPayload).getLast? ∧
    toPersistedTrendPoints streamsPayload = toPersistedTrendPoints streamsPayload := by
  have hsorted := survivingTrendPoints_sorted streamsPayload
  unfold toPersistedTrendPoints
  dsimp only []
  by_cases hnil : survivingTrendPoints streamsPayload = []
  · rw [if_pos hnil, hnil]
    exact ⟨by simp, List.Pairwise.nil, rfl, rfl, rfl⟩
  · rw [if_neg hnil]
    by_cases hle : (survivingTrendPoints streamsPayload).length ≤ 220
    · have hd : downsampleTrendPoints (survivingTrendPoints streamsPayload) 220 =
          survivingTrendPoints streamsPayload := by
        unfold downsampleTrendPoints
        rw [if_pos hle]
      rw [hd]
      refine ⟨hle, ?_, rfl, rfl, rfl⟩
      refine hsorted.imp ?_
      intro a b hab
      simpa [trendPointLe] using hab
    · have hgt : 220 < (survivingTrendPoints streamsPayload).length := by omega
      obtain ⟨h1, h2, h3, h4⟩ := downsample_props _ hsorted hgt
      refine ⟨h1, ?_, h3, h4, rfl⟩
      refine h2.imp ?_
      intro a b hab
      simpa [trendPointLe] using hab
